import Mathlib

/-!
# Verification of the frarber cross-exchange arbitrage engine

Shallow embedding of the `frarber` repository (Python): the arbitrage
execution loop (`frarber/arbitrage.py`), the price-difference streamer
(`frarber/price_diff.py`), configuration models (`frarber/config.py`),
exchange construction (`frarber/exchange.py`) and the equity-threshold
monitor (`frarber/equity_alert.py`).

Python floats are modelled as rationals (`ℚ`); exchange gateways (ccxt)
are external collaborators and are modelled at their interface boundary;
Python dynamic attribute access on the pydantic models is modelled by a
string-keyed lookup that returns `none` for attributes the model does not
define (pydantic raises `AttributeError` in that case).
-/

namespace Frarber

/-! ## Python string helpers

ccxt's `amount_to_precision`/`decimal_to_precision` return decimal
*strings* (the repository's own `mexc.py` compares such a result against
the string `"0"`).  `arbitrage.py` applies Python's `max` to two such
strings, which compares them lexicographically by code point, and then
converts the winner with `float(...)`.  We model both operations.
-/

/-- Lexicographic (code-point) strict comparison of char lists, as Python
compares `str` values. -/
def lexLt : List Char → List Char → Bool
  | [], [] => false
  | [], _ :: _ => true
  | _ :: _, [] => false
  | a :: as, b :: bs =>
    if a.toNat < b.toNat then true
    else if b.toNat < a.toNat then false
    else lexLt as bs

/-- Python `max(a, b)` on two strings: returns `b` when `b > a`
lexicographically, otherwise `a`. -/
def pyStrMax (a b : String) : String :=
  if lexLt a.data b.data then b else a

/-- Numeric value of a decimal digit character. -/
def digitVal (c : Char) : ℕ := c.toNat - 48

/-- Value of a list of decimal digit characters, most significant first. -/
def natOfDigits (cs : List Char) : ℕ :=
  cs.foldl (fun a c => 10 * a + digitVal c) 0

/-- Split a char list at the first `.`: integer part, fractional part,
and whether a dot was present. -/
def splitDot : List Char → List Char × List Char × Bool
  | [] => ([], [], false)
  | c :: cs =>
    if c = '.' then ([], cs, true)
    else
      let r := splitDot cs
      (c :: r.1, r.2.1, r.2.2)

/-- Python `float(s)` on the non-negative decimal strings produced by
ccxt's precision formatting. -/
def pyFloatOfString (s : String) : ℚ :=
  let r := splitDot s.data
  (natOfDigits r.1 : ℚ) +
    (if r.2.2 then (natOfDigits r.2.1 : ℚ) / (10 ^ r.2.1.length) else 0)

end Frarber

namespace Frarber

/-- Decimal digit character for `n < 10`. -/
def digitChar (n : ℕ) : Char := Char.ofNat (48 + n)

/-- Digits accumulator for rendering a natural number, driven by fuel so the
recursion is structural. -/
def natDecAux : ℕ → ℕ → List Char → List Char
  | 0, _, acc => acc
  | fuel + 1, n, acc =>
    if n = 0 then acc else natDecAux fuel (n / 10) (digitChar (n % 10) :: acc)

/-- Decimal string of a natural number (the integer output format of
the truncating gateway precision model below). -/
def natDecString (n : ℕ) : String :=
  if n = 0 then "0" else ⟨natDecAux (n + 1) n []⟩

/-! ## Price-difference streamer (`frarber/price_diff.py`)

`PriceDifferenceData` is a pydantic model whose numeric fields carry a
`gt=0` validation; we keep the four numeric fields the engine reads
(symbol, venue ids and timestamp do not enter any claim). -/

/-- The numeric payload of `PriceDifferenceData` (price_diff.py lines
11-23). -/
structure PriceDifferenceData where
  best_ask : ℚ
  best_bid : ℚ
  best_ask_size : ℚ
  best_bid_size : ℚ
  deriving DecidableEq

/-- `price_diff` property: short bid minus long ask. -/
def PriceDifferenceData.price_diff (d : PriceDifferenceData) : ℚ :=
  d.best_bid - d.best_ask

/-- `mid_price` property. -/
def PriceDifferenceData.mid_price (d : PriceDifferenceData) : ℚ :=
  (d.best_ask + d.best_bid) / 2

/-- `spread_percentage` property: spread over mid price, as a percentage. -/
def PriceDifferenceData.spread_percentage (d : PriceDifferenceData) : ℚ :=
  d.price_diff / d.mid_price * 100

/-- The pydantic `gt=0` constraints on the four numeric fields. -/
def PriceDifferenceData.Valid (d : PriceDifferenceData) : Prop :=
  0 < d.best_ask ∧ 0 < d.best_bid ∧ 0 < d.best_ask_size ∧ 0 < d.best_bid_size

instance (d : PriceDifferenceData) : Decidable d.Valid := by
  unfold PriceDifferenceData.Valid; infer_instance

/-- A top-of-book order book as returned by `watch_order_book`:
price/size levels. -/
structure OrderBook where
  asks : List (ℚ × ℚ)
  bids : List (ℚ × ℚ)
  deriving DecidableEq

/-- One iteration of the streamer loop: the outcome of the two concurrent
`watch_order_book` fetches (`asyncio.gather` with `return_exceptions=True`
turns a raised exception into an exception value, modelled as `.error`). -/
structure StreamTick where
  buy_fetch : Except Unit OrderBook
  sell_fetch : Except Unit OrderBook

/-- The body of the `while True` loop of `stream_price_diff` (price_diff.py
lines 76-110) for one tick.  Subscripting an exception value, an empty book
level, or a pydantic validation failure all raise inside the `try` block and
are caught by the generic handler, which logs, sleeps one interval and
continues; a successful tick yields the snapshot.  `none` models the caught
path (no snapshot emitted), `some` the yielded snapshot. -/
def processTick (t : StreamTick) : Option PriceDifferenceData :=
  match t.buy_fetch, t.sell_fetch with
  | .ok buy_orderbook, .ok sell_orderbook =>
    match buy_orderbook.asks.head?, sell_orderbook.bids.head? with
    | some (best_ask, best_ask_size), some (best_bid, best_bid_size) =>
      let d : PriceDifferenceData :=
        ⟨best_ask, best_bid, best_ask_size, best_bid_size⟩
      if d.Valid then some d else none
    | _, _ => none
  | _, _ => none

/-- Snapshots actually emitted to the consumer over a finite prefix of
stream iterations, in order. -/
def streamRun : List StreamTick → List PriceDifferenceData
  | [] => []
  | t :: ts =>
    match processTick t with
    | some d => d :: streamRun ts
    | none => streamRun ts

/-- Number of `update_interval` sleeps one tick performs: the failure
branch sleeps once and continues (skipping the bottom sleep), the success
branch yields and then sleeps once. -/
def tickSleeps (_ : StreamTick) : ℕ := 1

/-! ## Configuration (`frarber/config.py`) and pydantic attribute access

Pydantic models resolve attribute names dynamically; reading a name that
is not a declared field raises `AttributeError`.  `getAttr` embeds that
lookup: it returns `none` exactly for undeclared names. -/

/-- A value held by a pydantic model field (`SecretStr`, optional
`SecretStr`, or `bool`). -/
inductive PyVal where
  | secret (s : String)
  | optSecret (s : Option String)
  | bool (b : Bool)
  deriving DecidableEq

/-- `ExchangeConfig` (config.py lines 11-18): the five declared fields. -/
structure ExchangeConfig where
  api_key : String
  api_secret : String
  password : Option String := none
  slow : Bool := false
  hedge_mode : Bool := false
  deriving DecidableEq

/-- Dynamic attribute lookup on `ExchangeConfig`: the declared fields
resolve to their values, every other name is undefined. -/
def ExchangeConfig.getAttr (c : ExchangeConfig) (name : String) : Option PyVal :=
  if name = "api_key" then some (.secret c.api_key)
  else if name = "api_secret" then some (.secret c.api_secret)
  else if name = "password" then some (.optSecret c.password)
  else if name = "slow" then some (.bool c.slow)
  else if name = "hedge_mode" then some (.bool c.hedge_mode)
  else none

/-- Python exceptions surfaced by the embedded code paths. -/
inductive PyError where
  | attributeError (name : String)
  | keyError
  | valueError
  deriving DecidableEq

/-- Attribute read as an expression: undefined name raises
`AttributeError`. -/
def getattrE (c : ExchangeConfig) (name : String) : Except PyError PyVal :=
  match c.getAttr name with
  | some v => .ok v
  | none => .error (.attributeError name)

/-- Modelled from the spec: `frarber/enums/exchange_type.py` is not under
`src/`; its members are the ones matched in `exchange.py` and
`utils/symbol.py`. -/
inductive ExchangeType where
  | BINANCE | BINANCE_COINM | BINANCE_USDM | BITGET | BYBIT | MEXC | PHEMEX
  | MEXC_USDTM
  deriving DecidableEq

/-- `Config` (config.py lines 21-24): the single declared field is the
`exchanges` dict, modelled as an association list. -/
structure Config where
  exchanges : List (ExchangeType × ExchangeConfig) := []

/-- Names of the declared fields of `Config`. -/
def Config.attrNames : List String := ["exchanges"]

/-- Dynamic attribute access on `Config` (value-free: only definedness
matters for the embedded paths). -/
def Config.getattrE (_ : Config) (name : String) : Except PyError Unit :=
  if name ∈ Config.attrNames then .ok () else .error (.attributeError name)

/-- Dictionary lookup `config.exchanges[exchange]`. -/
def Config.findConfig (c : Config) (e : ExchangeType) : Option ExchangeConfig :=
  (c.exchanges.find? (fun p => p.1 = e)).map Prod.snd

/-! ## Exchange construction (`frarber/exchange.py`) -/

/-- The value `create_exchange` would return: the resolved exchange class
plus the credential triple passed to the constructor, when any. -/
structure ExchangeInstance where
  cls : ExchangeType
  credentials : Option (String × String × Option String) := none
  deriving DecidableEq

/-- The `match exchange` dispatch of `create_exchange` (exchange.py lines
29-48): every member maps to its class; `MEXC_USDTM` maps to the `Mexc`
class and rebinds `exchange` to `MEXC`.  All members are handled, so the
fall-through `ValueError` is unreachable. -/
def resolveExchange (e : ExchangeType) : ExchangeType :=
  match e with
  | .MEXC_USDTM => .MEXC
  | x => x

/-- `create_exchange` (exchange.py lines 17-73).  With credentials it looks
up the exchange config (`KeyError` when absent, as for a Python dict) and
then evaluates the `ConstructorArgs` keyword arguments left to right:
`apiKey`, `secret`, `password`, `userToken`, `httpProxy`.  The `userToken`
argument reads `exchange_config.user_token` and the `httpProxy` argument
reads `config.http_proxy`; neither attribute is declared on the models. -/
def create_exchange (cfg : Config) (exchange : ExchangeType)
    (with_credential : Bool) : Except PyError ExchangeInstance :=
  let resolved := resolveExchange exchange
  if with_credential = false then .ok { cls := resolved }
  else
    match cfg.findConfig resolved with
    | none => .error .keyError
    | some exchange_config => do
      let _apiKey ← getattrE exchange_config "api_key"
      let _secret ← getattrE exchange_config "api_secret"
      let _password ← getattrE exchange_config "password"
      let _userToken ← getattrE exchange_config "user_token"
      let _httpProxy ← cfg.getattrE "http_proxy"
      .ok { cls := resolved,
            credentials := some (exchange_config.api_key,
              exchange_config.api_secret, exchange_config.password) }

/-! ## Arbitrage engine (`frarber/arbitrage.py`) -/

/-- Modelled from the spec: `frarber/enums/action.py` is not under `src/`;
the spec (§3) gives the two members OPEN and CLOSE. -/
inductive Action where
  | OPEN | CLOSE
  deriving DecidableEq

/-- Modelled from the spec: `frarber/enums/position_side.py` is not under
`src/`; LONG and SHORT with lowercase string values (`.value` feeds the
order parameters, and `.capitalize()` is applied for Phemex). -/
inductive PositionSide where
  | LONG | SHORT
  deriving DecidableEq

/-- The `.value` string of a `PositionSide` member. -/
def PositionSide.value : PositionSide → String
  | .LONG => "long"
  | .SHORT => "short"

/-- A value in a ccxt order-params dict. -/
inductive ParamVal where
  | s (v : String)
  | i (v : ℤ)
  | b (v : Bool)
  deriving DecidableEq

/-- An order-params dict. -/
abbrev OrderParams := List (String × ParamVal)

/-- `derive_hedged_mode_order_params` (arbitrage.py lines 19-36). -/
def derive_hedged_mode_order_params (exchange : ExchangeType)
    (action : Action) (position_side : PositionSide) :
    Except PyError OrderParams :=
  match exchange with
  | .BINANCE_USDM => .ok [("positionSide", .s position_side.value)]
  | .BYBIT =>
    .ok [("positionIdx", .i (if position_side = .LONG then 1 else 2))]
  | .BITGET =>
    if action = .OPEN then .ok [("hedged", .b true)]
    else .ok [("hedged", .b true), ("reduceOnly", .b true)]
  | .PHEMEX => .ok [("posSide", .s position_side.value.capitalize)]
  | _ => .error .valueError

/-- Truthiness of an attribute value in an `if` condition. -/
def pyTruthy : PyVal → Bool
  | .secret s => s ≠ ""
  | .optSecret s => s.isSome ∧ s ≠ some ""
  | .bool b => b

/-- The per-leg parameter computation of `create_arbitrage_order`
(arbitrage.py lines 76-95), exactly as the source reads it: the branch
condition is the attribute `hedged_mode` of the exchange config. -/
def derive_leg_params (cfg : ExchangeConfig) (exchange : ExchangeType)
    (action : Action) (position_side : PositionSide) :
    Except PyError OrderParams := do
  let hedged ← getattrE cfg "hedged_mode"
  if pyTruthy hedged then
    derive_hedged_mode_order_params exchange action position_side
  else if action = .CLOSE then .ok [("reduceOnly", .b true)]
  else .ok []

/-- Modelled from the spec: the intended per-leg parameter computation.
The spec (§4.2, §6) keys the branch on the configured hedge-mode flag,
which `config.py` declares as the field `hedge_mode`; this definition
reads that field where the source misspells the attribute name. -/
def derive_leg_params_spec (cfg : ExchangeConfig) (exchange : ExchangeType)
    (action : Action) (position_side : PositionSide) :
    Except PyError OrderParams :=
  if cfg.hedge_mode then
    derive_hedged_mode_order_params exchange action position_side
  else if action = .CLOSE then .ok [("reduceOnly", .b true)]
  else .ok []

/-- The per-venue gateway surface the engine loop uses (§6 of the spec):
`amount_to_precision` formats an amount as a decimal string or raises
`InvalidOrder`, and the market metadata carries
`market(symbol)["limits"]["cost"]["min"]`. -/
structure EngineVenue where
  amount_to_precision : ℚ → Except Unit String
  min_notional : Option ℚ

/-- The run-constant inputs of the `create_arbitrage_order` tick loop. -/
structure EngineConfig where
  action : Action
  long_venue : EngineVenue
  short_venue : EngineVenue
  total_size : ℚ
  timeout : ℚ
  threshold : ℚ

/-- An order side. -/
inductive Side where
  | buy | sell
  deriving DecidableEq

/-- Sides of the (long-venue, short-venue) legs: OPEN buys on the long
venue and sells on the short venue; CLOSE inverts both. -/
def legSides : Action → Side × Side
  | .OPEN => (.buy, .sell)
  | .CLOSE => (.sell, .buy)

/-- What happened on one engine tick.  `placed` records the side of each
leg and the common amount sent to both `create_order` calls. -/
inductive TickEvent where
  | timeoutStop
  | thresholdSkip
  | targetReached
  | precisionSkip
  | notionalSkip
  | placed (long_side short_side : Side) (amount : ℚ)
  deriving DecidableEq

/-- The test `min_notional is not None and notional < min_notional`
(arbitrage.py lines 146 and 151). -/
def belowMin (notional : ℚ) : Option ℚ → Bool
  | some m => notional < m
  | none => false

/-- One snapshot as the engine sees it: the streamed data plus the elapsed
wall-clock time `time.time() - start_time` observed at the top of the
iteration. -/
structure Tick where
  elapsed : ℚ
  data : PriceDifferenceData

/-- The body of the `async for` loop of `create_arbitrage_order`
(arbitrage.py lines 107-184) for one tick: timeout check, threshold gate,
remaining-size check, candidate sizing, precision normalization (Python
`max` over the two returned strings, then `float`), minimum-notional
validation, and paired placement.  Returns the event, the updated
`transacted_size`, and whether the loop breaks. -/
def stepTick (cfg : EngineConfig) (transacted_size : ℚ) (t : Tick) :
    TickEvent × ℚ × Bool :=
  if t.elapsed > cfg.timeout then (.timeoutStop, transacted_size, true)
  else if ¬ t.data.spread_percentage > cfg.threshold then
    (.thresholdSkip, transacted_size, false)
  else
    let remaining_size := cfg.total_size - transacted_size
    if remaining_size ≤ 0 then (.targetReached, transacted_size, true)
    else
      let candidate :=
        min (min t.data.best_ask_size t.data.best_bid_size) remaining_size
      match cfg.long_venue.amount_to_precision candidate,
          cfg.short_venue.amount_to_precision candidate with
      | .ok long_str, .ok short_str =>
        let current_order_size := pyFloatOfString (pyStrMax long_str short_str)
        let long_notional := current_order_size * t.data.best_ask
        let short_notional := current_order_size * t.data.best_bid
        if belowMin long_notional cfg.long_venue.min_notional then
          (.notionalSkip, transacted_size, false)
        else if belowMin short_notional cfg.short_venue.min_notional then
          (.notionalSkip, transacted_size, false)
        else
          (.placed (legSides cfg.action).1 (legSides cfg.action).2
            current_order_size,
           transacted_size + current_order_size, false)
      | _, _ => (.precisionSkip, transacted_size, false)

/-- The tick loop: processes snapshots in order, threading
`transacted_size`, and stops at the first breaking tick.  Each processed
tick is recorded with its event and the transacted size after it. -/
def runTicks (cfg : EngineConfig) (transacted_size : ℚ) :
    List Tick → List (TickEvent × ℚ)
  | [] => []
  | t :: ts =>
    let r := stepTick cfg transacted_size t
    if r.2.2 then [(r.1, r.2.1)]
    else (r.1, r.2.1) :: runTicks cfg r.2.1 ts

/-- A run of `create_arbitrage_order` over a finite prefix of consumed
snapshots: `transacted_size` starts at `0` (arbitrage.py line 97). -/
def create_arbitrage_run (cfg : EngineConfig) (ticks : List Tick) :
    List (TickEvent × ℚ) :=
  runTicks cfg 0 ticks

/-- `create_arbitrage_order` end to end: both leg parameter dicts are
computed once, before the first tick (arbitrage.py lines 74-95), and only
then is the stream consumed. -/
def create_arbitrage_order (long_config short_config : ExchangeConfig)
    (long_type short_type : ExchangeType) (cfg : EngineConfig)
    (ticks : List Tick) :
    Except PyError (OrderParams × OrderParams × List (TickEvent × ℚ)) := do
  let long_params ← derive_leg_params long_config long_type cfg.action .LONG
  let short_params ← derive_leg_params short_config short_type cfg.action .SHORT
  .ok (long_params, short_params, create_arbitrage_run cfg ticks)

/-- The truncation contract of the gateway precision formatting (§6;
ccxt formats amounts with TRUNCATE): on a non-negative amount the returned
decimal string denotes a value between `0` and the amount. -/
def EngineVenue.Truncating (v : EngineVenue) : Prop :=
  ∀ x s, 0 ≤ x → v.amount_to_precision x = .ok s →
    0 ≤ pyFloatOfString s ∧ pyFloatOfString s ≤ x

/-- A concrete truncating gateway: amounts are truncated to the multiple
of `step` below and rendered as integer decimal strings. -/
def truncToStep (step : ℕ) (x : ℚ) : ℕ :=
  step * (⌊x / step⌋).toNat

/-- A venue whose amount precision step is the integer `step`, with no
minimum notional. -/
def stepVenue (step : ℕ) : EngineVenue :=
  ⟨fun x => .ok (natDecString (truncToStep step x)), none⟩

/-- A gateway that formats every amount as the string `"0"` (a degenerate
but legal truncating precision), with no minimum notional. -/
def zeroVenue : EngineVenue := ⟨fun _ => .ok "0", none⟩

/-- An integer-step venue that also declares a minimum notional of 1000. -/
def minNotionalVenue : EngineVenue :=
  ⟨(stepVenue 1).amount_to_precision, some 1000⟩

/-- Scenario instances used to exercise the engine on concrete inputs. -/
def cfgGate : EngineConfig := ⟨.OPEN, stepVenue 1, stepVenue 1, 10, 1800, 5/100⟩

/-- A tick with zero spread (best bid equals best ask). -/
def tickGate : Tick := ⟨0, ⟨100, 100, 4, 6⟩⟩

/-- The spec scenario configuration: target 10, threshold 0.05. -/
def cfgScenario : EngineConfig :=
  ⟨.OPEN, stepVenue 1, stepVenue 1, 10, 1800, 5/100⟩

/-- The spec scenario tick: ask 100 size 4, bid 100.2 size 6. -/
def tickScenario : Tick := ⟨0, ⟨100, 501/5, 4, 6⟩⟩

/-- The scenario configuration with a 1000 minimum notional on the long
venue. -/
def cfgNotional : EngineConfig :=
  ⟨.OPEN, minNotionalVenue, stepVenue 1, 10, 1800, 5/100⟩

/-- The spec scenario tick again, for the minimum-notional run. -/
def tickNotional : Tick := ⟨0, ⟨100, 501/5, 4, 6⟩⟩

/-- A run against the degenerate zero gateway, target 1. -/
def cfgZero : EngineConfig := ⟨.OPEN, zeroVenue, zeroVenue, 1, 1800, 0⟩

/-- A plain profitable tick. -/
def tickZero : Tick := ⟨0, ⟨100, 101, 4, 4⟩⟩

/-- Zero-threshold run against the zero gateway, target 10. -/
def cfgStrMax : EngineConfig := ⟨.OPEN, zeroVenue, zeroVenue, 10, 1800, 0⟩

/-- A profitable tick for the string-max policy run. -/
def tickStrMax : Tick := ⟨0, ⟨100, 101, 4, 6⟩⟩

/-- Venues with precision steps 10 and 3: their truncations of the same
candidate produce decimal strings whose Python string-max is not the
numeric maximum. -/
def cfgLex : EngineConfig := ⟨.OPEN, stepVenue 10, stepVenue 3, 100, 1800, 0⟩

/-- A tick offering size 10.4 against size 11 with a wide spread. -/
def tickLex : Tick := ⟨0, ⟨1, 2, 52/5, 11⟩⟩

/-- Target exactly 4, zero threshold: one tick meets the target. -/
def cfgAfterTarget : EngineConfig :=
  ⟨.OPEN, stepVenue 1, stepVenue 1, 4, 1800, 0⟩

/-- A profitable tick of size 4 on both sides. -/
def tickTrade : Tick := ⟨0, ⟨100, 101, 4, 4⟩⟩

/-- A zero-spread tick consumed after the target is met. -/
def tickFlatAfter : Tick := ⟨0, ⟨100, 100, 4, 4⟩⟩

/-! ## Equity alert monitor (`frarber/equity_alert.py`) -/

/-- `ThresholdDirection` (enums/threshold_direction.py). -/
inductive ThresholdDirection where
  | ABOVE | BELOW
  deriving DecidableEq

/-- `_is_threshold_crossed` (equity_alert.py lines 169-176): inclusive
comparison on both directions. -/
def is_threshold_crossed (equity threshold : ℚ)
    (direction : ThresholdDirection) : Bool :=
  match direction with
  | .ABOVE => equity ≥ threshold
  | .BELOW => equity ≤ threshold

/-- The polling loop of `monitor_equity_threshold` (equity_alert.py lines
45-86) over a finite prefix of `fetch_balance` outcomes (`.error` models a
raised fetch exception, `.ok` the extracted equity).  A fetch failure
sleeps and continues without touching `previous_condition`; a successful
iteration alerts when the condition holds and `previous_condition` is not
`True`, then (unless the loop breaks on `trigger_once`) records the
condition as `previous_condition`.  Returns the equities of the alerts
sent, in order. -/
def monitor_equity_threshold (threshold : ℚ)
    (direction : ThresholdDirection) (trigger_once : Bool) :
    Option Bool → List (Except Unit ℚ) → List ℚ
  | _, [] => []
  | previous_condition, .error _ :: rest =>
    monitor_equity_threshold threshold direction trigger_once
      previous_condition rest
  | previous_condition, .ok equity :: rest =>
    let condition_met := is_threshold_crossed equity threshold direction
    if condition_met && !(previous_condition == some true) then
      if trigger_once then [equity]
      else equity :: monitor_equity_threshold threshold direction trigger_once
        (some condition_met) rest
    else
      monitor_equity_threshold threshold direction trigger_once
        (some condition_met) rest

/-- The equities of the successful fetches, in order. -/
def successes (inputs : List (Except Unit ℚ)) : List ℚ :=
  inputs.filterMap (fun r => r.toOption)

/-- Reference rising-edge semantics over the sequence of successfully
fetched equities: an equity is kept exactly when the condition holds for
it and did not hold for the immediately preceding equity (or there is no
preceding one, `prev = none`). -/
def edgesFrom (cond : ℚ → Bool) : Option ℚ → List ℚ → List ℚ
  | _, [] => []
  | prev, e :: es =>
    if cond e && !(prev.elim false cond) then e :: edgesFrom cond (some e) es
    else edgesFrom cond (some e) es

/-! ## Helper lemmas -/

theorem pyStrMax_eq_or (a b : String) : pyStrMax a b = a ∨ pyStrMax a b = b := by
  unfold pyStrMax
  split
  · exact Or.inr rfl
  · exact Or.inl rfl

theorem pyFloatOfString_of_splitDot {s : String} {w f : List Char} {b : Bool}
    (h : splitDot s.data = (w, f, b)) :
    pyFloatOfString s =
      (natOfDigits w : ℚ) +
        (if b then (natOfDigits f : ℚ) / (10 ^ f.length) else 0) := by
  unfold pyFloatOfString
  rw [h]

theorem pyFloatOfString_zero : pyFloatOfString "0" = 0 := by
  rw [pyFloatOfString_of_splitDot (show splitDot "0".data = (['0'], [], false) by decide)]
  norm_num [show natOfDigits ['0'] = 0 by decide]

theorem pyFloatOfString_four : pyFloatOfString "4" = 4 := by
  rw [pyFloatOfString_of_splitDot (show splitDot "4".data = (['4'], [], false) by decide)]
  norm_num [show natOfDigits ['4'] = 4 by decide]

theorem pyFloatOfString_nine : pyFloatOfString "9" = 9 := by
  rw [pyFloatOfString_of_splitDot (show splitDot "9".data = (['9'], [], false) by decide)]
  norm_num [show natOfDigits ['9'] = 9 by decide]

theorem pyFloatOfString_ten : pyFloatOfString "10" = 10 := by
  rw [pyFloatOfString_of_splitDot
    (show splitDot "10".data = (['1', '0'], [], false) by decide)]
  norm_num [show natOfDigits ['1', '0'] = 10 by decide]

theorem stepVenue_atp (k : ℕ) (x : ℚ) :
    (stepVenue k).amount_to_precision x =
      .ok (natDecString (truncToStep k x)) := rfl

theorem truncToStep_eq (k : ℕ) (x : ℚ) (z : ℤ) (hz : ⌊x / (k : ℚ)⌋ = z) :
    truncToStep k x = k * z.toNat := by
  unfold truncToStep
  rw [hz]

theorem map_cond_beq_true (cond : ℚ → Bool) (prev : Option ℚ) :
    (prev.map cond == some true) = prev.elim false cond := by
  cases prev with
  | none => rfl
  | some p => cases h : cond p <;> simp [h]

theorem monitor_eq_edgesFrom (threshold : ℚ) (direction : ThresholdDirection)
    (trigger_once : Bool) :
    ∀ (inputs : List (Except Unit ℚ)) (prev : Option ℚ),
      monitor_equity_threshold threshold direction trigger_once
          (prev.map (fun e => is_threshold_crossed e threshold direction))
          inputs =
        (if trigger_once then
            (edgesFrom (fun e => is_threshold_crossed e threshold direction)
              prev (successes inputs)).take 1
          else
            edgesFrom (fun e => is_threshold_crossed e threshold direction)
              prev (successes inputs)) := by
  intro inputs
  induction inputs with
  | nil =>
    intro prev
    simp [monitor_equity_threshold, successes, edgesFrom]
  | cons r rest ih =>
    intro prev
    cases r with
    | error u =>
      have hs : successes (Except.error u :: rest) = successes rest := by
        simp [successes, Except.toOption]
      rw [show monitor_equity_threshold threshold direction trigger_once
          (prev.map (fun e => is_threshold_crossed e threshold direction))
          (Except.error u :: rest) =
        monitor_equity_threshold threshold direction trigger_once
          (prev.map (fun e => is_threshold_crossed e threshold direction))
          rest from rfl, hs]
      exact ih prev
    | ok e =>
      have hs : successes (Except.ok e :: rest) = e :: successes rest := by
        simp [successes, Except.toOption]
      have hmon : monitor_equity_threshold threshold direction trigger_once
          (prev.map (fun x => is_threshold_crossed x threshold direction))
          (Except.ok e :: rest) =
        (if is_threshold_crossed e threshold direction &&
            !(prev.map (fun x => is_threshold_crossed x threshold direction)
              == some true) then
          (if trigger_once then [e]
           else e :: monitor_equity_threshold threshold direction trigger_once
             (some (is_threshold_crossed e threshold direction)) rest)
         else monitor_equity_threshold threshold direction trigger_once
           (some (is_threshold_crossed e threshold direction)) rest) := rfl
      have hedge : edgesFrom (fun x => is_threshold_crossed x threshold direction)
          prev (e :: successes rest) =
        (if is_threshold_crossed e threshold direction &&
            !(prev.elim false (fun x => is_threshold_crossed x threshold direction)) then
          e :: edgesFrom (fun x => is_threshold_crossed x threshold direction)
            (some e) (successes rest)
         else edgesFrom (fun x => is_threshold_crossed x threshold direction)
           (some e) (successes rest)) := rfl
      have hih := ih (some e)
      rw [show (some e).map (fun x => is_threshold_crossed x threshold direction) =
        some (is_threshold_crossed e threshold direction) from rfl] at hih
      rw [hs, hmon, hedge, map_cond_beq_true]
      cases h : (is_threshold_crossed e threshold direction &&
          !(prev.elim false (fun x => is_threshold_crossed x threshold direction))) with
      | false => simp [hih]
      | true =>
        cases trigger_once with
        | true => simp [List.take]
        | false => simp [hih]

theorem except_bind_ok {ε α β : Type} (a : α) (f : α → Except ε β) :
    (Except.ok a >>= f) = f a := rfl

theorem except_bind_error {ε α β : Type} (e : ε) (f : α → Except ε β) :
    ((Except.error e : Except ε α) >>= f) = .error e := rfl

theorem exchangeConfig_getAttr_api_key (c : ExchangeConfig) :
    c.getAttr "api_key" = some (.secret c.api_key) := by
  unfold ExchangeConfig.getAttr
  rw [if_pos rfl]

theorem exchangeConfig_getAttr_api_secret (c : ExchangeConfig) :
    c.getAttr "api_secret" = some (.secret c.api_secret) := by
  unfold ExchangeConfig.getAttr
  rw [if_neg (by decide), if_pos rfl]

theorem exchangeConfig_getAttr_password (c : ExchangeConfig) :
    c.getAttr "password" = some (.optSecret c.password) := by
  unfold ExchangeConfig.getAttr
  rw [if_neg (by decide), if_neg (by decide), if_pos rfl]

theorem exchangeConfig_getAttr_user_token (c : ExchangeConfig) :
    c.getAttr "user_token" = none := by
  unfold ExchangeConfig.getAttr
  rw [if_neg (by decide), if_neg (by decide), if_neg (by decide),
    if_neg (by decide), if_neg (by decide)]

theorem exchangeConfig_getAttr_hedged_mode (c : ExchangeConfig) :
    c.getAttr "hedged_mode" = none := by
  unfold ExchangeConfig.getAttr
  rw [if_neg (by decide), if_neg (by decide), if_neg (by decide),
    if_neg (by decide), if_neg (by decide)]

/-! ## Claim theorems -/

/-- C10: `monitor_equity_threshold` fires a webhook only on a rising edge:
over the successfully polled equities, an alert is sent exactly when the
condition is met now and was not met at the immediately preceding
evaluation (or there was none); the condition is inclusive
(`equity ≥ threshold` for ABOVE, `equity ≤ threshold` for BELOW); with
`trigger_once` the loop ends after the first alert, so the alert list is
truncated to the first rising edge. -/
theorem equity_alert_rising_edge (threshold : ℚ)
    (direction : ThresholdDirection) (inputs : List (Except Unit ℚ)) :
    monitor_equity_threshold threshold direction false none inputs =
      edgesFrom (fun e => is_threshold_crossed e threshold direction) none
        (successes inputs) ∧
    monitor_equity_threshold threshold direction true none inputs =
      (edgesFrom (fun e => is_threshold_crossed e threshold direction) none
        (successes inputs)).take 1 ∧
    (∀ e : ℚ, is_threshold_crossed e threshold .ABOVE =
      decide (threshold ≤ e)) ∧
    (∀ e : ℚ, is_threshold_crossed e threshold .BELOW =
      decide (e ≤ threshold)) := by
  refine ⟨?_, ?_, fun e => rfl, fun e => rfl⟩
  · simpa using monitor_eq_edgesFrom threshold direction false inputs none
  · simpa using monitor_eq_edgesFrom threshold direction true inputs none

/-- C7: the streamer emits a snapshot only for ticks on which both fetches
succeeded; a tick with a failed fetch emits nothing, sleeps one interval
and the stream continues; after any run of non-emitting ticks, the first
tick that produces a valid snapshot is emitted to the consumer. -/
theorem stream_skips_failed_fetches :
    (∀ (t : StreamTick) (d : PriceDifferenceData), processTick t = some d →
      (∃ b, t.buy_fetch = .ok b) ∧ ∃ b, t.sell_fetch = .ok b) ∧
    (∀ t : StreamTick, (t.buy_fetch = .error () ∨ t.sell_fetch = .error ()) →
      processTick t = none ∧ tickSleeps t = 1 ∧
        ∀ ts, streamRun (t :: ts) = streamRun ts) ∧
    (∀ (pre : List StreamTick) (t : StreamTick) (ts : List StreamTick)
      (d : PriceDifferenceData), (∀ u ∈ pre, processTick u = none) →
      processTick t = some d →
      streamRun (pre ++ t :: ts) = d :: streamRun ts) := by
  refine ⟨?_, ?_, ?_⟩
  · intro t d h
    rcases t with ⟨bf, sf⟩
    cases bf with
    | error u => simp [processTick] at h
    | ok b =>
      cases sf with
      | error u => simp [processTick] at h
      | ok b2 => exact ⟨⟨b, rfl⟩, ⟨b2, rfl⟩⟩
  · intro t h
    have hnone : processTick t = none := by
      rcases t with ⟨bf, sf⟩
      rcases h with h | h
      · simp only at h
        subst h
        cases sf <;> simp [processTick]
      · simp only at h
        subst h
        cases bf <;> simp [processTick]
    exact ⟨hnone, rfl, fun ts => by simp [streamRun, hnone]⟩
  · intro pre
    induction pre with
    | nil =>
      intro t ts d _ h
      simp [streamRun, h]
    | cons u pre ih =>
      intro t ts d hall h
      have hu : processTick u = none := hall u (by simp)
      have hrest := ih t ts d (fun v hv => hall v (by simp [hv])) h
      simp [streamRun, hu, hrest]

/-- C7 witness: the spec scenario — the fetch fails twice, then succeeds;
only the successful tick emits. -/
theorem stream_skips_failed_fetches_witness :
    streamRun [⟨.error (), .ok ⟨[(100, 4)], [(101, 5)]⟩⟩,
        ⟨.error (), .ok ⟨[(100, 4)], [(101, 5)]⟩⟩,
        ⟨.ok ⟨[(100, 4)], [(101, 5)]⟩, .ok ⟨[(100, 4)], [(101, 5)]⟩⟩] =
      [⟨100, 101, 4, 5⟩] ∧
    processTick ⟨.error (), .ok ⟨[(100, 4)], [(101, 5)]⟩⟩ = none := by
  have hfail := (stream_skips_failed_fetches.2.1
    ⟨.error (), .ok ⟨[(100, 4)], [(101, 5)]⟩⟩ (Or.inl rfl)).1
  have hok : processTick
      ⟨.ok ⟨[(100, 4)], [(101, 5)]⟩, .ok ⟨[(100, 4)], [(101, 5)]⟩⟩ =
      some ⟨100, 101, 4, 5⟩ := by
    rw [show processTick
        ⟨.ok ⟨[(100, 4)], [(101, 5)]⟩, .ok ⟨[(100, 4)], [(101, 5)]⟩⟩ =
      if (⟨100, 101, 4, 5⟩ : PriceDifferenceData).Valid
        then some ⟨100, 101, 4, 5⟩ else none from rfl]
    rw [if_pos (by norm_num [PriceDifferenceData.Valid])]
  have hmain := stream_skips_failed_fetches.2.2
    [⟨.error (), .ok ⟨[(100, 4)], [(101, 5)]⟩⟩,
     ⟨.error (), .ok ⟨[(100, 4)], [(101, 5)]⟩⟩]
    ⟨.ok ⟨[(100, 4)], [(101, 5)]⟩, .ok ⟨[(100, 4)], [(101, 5)]⟩⟩ []
    ⟨100, 101, 4, 5⟩
    (by
      intro u hu
      simp only [List.mem_cons, List.not_mem_nil, or_false] at hu
      rcases hu with rfl | rfl <;> exact hfail)
    hok
  refine ⟨?_, hfail⟩
  simpa [streamRun] using hmain

/-- C5: a tick whose spread percentage does not exceed the threshold is
skipped: no order is placed, the transacted size is unchanged, and the run
continues with the next tick. -/
theorem threshold_gate_skips_tick (cfg : EngineConfig) (tr : ℚ) (t : Tick)
    (ts : List Tick) (htime : t.elapsed ≤ cfg.timeout)
    (hspread : t.data.spread_percentage ≤ cfg.threshold) :
    runTicks cfg tr (t :: ts) = (.thresholdSkip, tr) :: runTicks cfg tr ts := by
  have h1 : ¬ t.elapsed > cfg.timeout := not_lt.mpr htime
  have h2 : ¬ t.data.spread_percentage > cfg.threshold := not_lt.mpr hspread
  have hstep : stepTick cfg tr t = (.thresholdSkip, tr, false) := by
    unfold stepTick
    rw [if_neg h1, if_pos h2]
  simp [runTicks, hstep]

/-- C4: evidence for the code bug in one-way-mode parameter derivation.
The source branches on `exchange_config.hedged_mode` but the declared
field is `hedge_mode`, so every run of `create_arbitrage_order` raises
`AttributeError` while deriving the leg parameters, before any tick; the
spec-intended computation (branching on the declared `hedge_mode` field)
yields exactly the reduce-only flag for CLOSE and empty parameters for
OPEN on a one-way venue. -/
theorem derive_leg_params_attribute_error :
    (∀ (c : ExchangeConfig) (e : ExchangeType) (a : Action)
      (p : PositionSide),
      derive_leg_params c e a p = .error (.attributeError "hedged_mode")) ∧
    (∀ (k s : String) (pw : Option String) (sl : Bool) (e : ExchangeType)
      (p : PositionSide),
      derive_leg_params_spec ⟨k, s, pw, sl, false⟩ e .CLOSE p =
        .ok [("reduceOnly", .b true)] ∧
      derive_leg_params_spec ⟨k, s, pw, sl, false⟩ e .OPEN p = .ok []) ∧
    (∀ (lc sc : ExchangeConfig) (lt st : ExchangeType) (cfg : EngineConfig)
      (ticks : List Tick),
      create_arbitrage_order lc sc lt st cfg ticks =
        .error (.attributeError "hedged_mode")) := by
  have hleg : ∀ (c : ExchangeConfig) (e : ExchangeType) (a : Action)
      (p : PositionSide),
      derive_leg_params c e a p = .error (.attributeError "hedged_mode") := by
    intro c e a p
    unfold derive_leg_params
    rw [show getattrE c "hedged_mode" =
        .error (.attributeError "hedged_mode") from by
      unfold getattrE
      rw [exchangeConfig_getAttr_hedged_mode]]
    rfl
  refine ⟨hleg, ?_, ?_⟩
  · intro k s pw sl e p
    exact ⟨rfl, rfl⟩
  · intro lc sc lt st cfg ticks
    unfold create_arbitrage_order
    rw [hleg]
    rfl

/-- C9 counterexample: with a loaded configuration that lacks an entry for
the requested exchange, `create_exchange` with credentials raises
`KeyError` (from the dict lookup), not `AttributeError`, so the claim as
universally stated over all loaded configurations is false. -/
theorem create_exchange_missing_entry_keyerror :
    create_exchange ⟨[]⟩ .BINANCE true = .error .keyError ∧
    ∀ n, (Except.error PyError.keyError :
      Except PyError ExchangeInstance) ≠ .error (.attributeError n) := by
  refine ⟨rfl, ?_⟩
  intro n h
  simp at h

/-- C9 (amended): whenever the loaded configuration has an entry for the
resolved exchange type, `create_exchange` with credentials raises
`AttributeError` while evaluating the `userToken` constructor argument
(the models declare no `user_token` field), before any exchange instance
is returned. -/
theorem create_exchange_attribute_error (cfg : Config) (ex : ExchangeType)
    (ec : ExchangeConfig)
    (h : cfg.findConfig (resolveExchange ex) = some ec) :
    create_exchange cfg ex true = .error (.attributeError "user_token") := by
  unfold create_exchange
  rw [if_neg (by decide), h]
  simp [getattrE, exchangeConfig_getAttr_api_key,
    exchangeConfig_getAttr_api_secret, exchangeConfig_getAttr_password,
    exchangeConfig_getAttr_user_token, except_bind_ok, except_bind_error]

/-- C9 witness: a configuration holding a Bybit entry. -/
theorem create_exchange_attribute_error_witness :
    create_exchange ⟨[(.BYBIT, ⟨"k", "s", none, false, false⟩)]⟩ .BYBIT true =
      .error (.attributeError "user_token") :=
  create_exchange_attribute_error _ .BYBIT ⟨"k", "s", none, false, false⟩
    (by decide)

theorem stepVenue_one_atp_four :
    (stepVenue 1).amount_to_precision 4 = .ok "4" := by
  rw [stepVenue_atp, truncToStep_eq 1 4 4 (by norm_num),
    show natDecString (1 * Int.toNat 4) = "4" from by decide]

theorem stepVenue_ten_atp :
    (stepVenue 10).amount_to_precision (52/5) = .ok "10" := by
  rw [stepVenue_atp, truncToStep_eq 10 (52/5) 1 (by norm_num [Int.floor_eq_iff]),
    show natDecString (10 * Int.toNat 1) = "10" from by decide]

theorem stepVenue_three_atp :
    (stepVenue 3).amount_to_precision (52/5) = .ok "9" := by
  rw [stepVenue_atp, truncToStep_eq 3 (52/5) 3 (by norm_num [Int.floor_eq_iff]),
    show natDecString (3 * Int.toNat 3) = "9" from by decide]

theorem zeroVenue_truncating : zeroVenue.Truncating := by
  intro x s hx h
  have hs : "0" = s := by
    simpa [zeroVenue] using h
  subst hs
  rw [pyFloatOfString_zero]
  exact ⟨le_refl 0, hx⟩

theorem stepTick_bounds (cfg : EngineConfig) (tr : ℚ) (t : Tick)
    (hL : cfg.long_venue.Truncating) (hS : cfg.short_venue.Truncating)
    (hv : t.data.Valid) (hub : tr ≤ cfg.total_size) :
    tr ≤ (stepTick cfg tr t).2.1 ∧
      (stepTick cfg tr t).2.1 ≤ cfg.total_size := by
  obtain ⟨hva, hvb, hvas, hvbs⟩ := hv
  simp only [stepTick]
  by_cases hA : t.elapsed > cfg.timeout
  · rw [if_pos hA]
    exact ⟨le_refl tr, hub⟩
  rw [if_neg hA]
  by_cases hB : ¬ t.data.spread_percentage > cfg.threshold
  · rw [if_pos hB]
    exact ⟨le_refl tr, hub⟩
  rw [if_neg hB]
  by_cases hC : cfg.total_size - tr ≤ 0
  · rw [if_pos hC]
    exact ⟨le_refl tr, hub⟩
  rw [if_neg hC]
  have hrem : 0 < cfg.total_size - tr := lt_of_not_le hC
  have hcand0 : (0 : ℚ) ≤
      min (min t.data.best_ask_size t.data.best_bid_size)
        (cfg.total_size - tr) :=
    le_min (le_min hvas.le hvbs.le) hrem.le
  cases hl : cfg.long_venue.amount_to_precision
      (min (min t.data.best_ask_size t.data.best_bid_size)
        (cfg.total_size - tr)) with
  | error u =>
    cases hs2 : cfg.short_venue.amount_to_precision
        (min (min t.data.best_ask_size t.data.best_bid_size)
          (cfg.total_size - tr)) <;>
      exact ⟨le_refl tr, hub⟩
  | ok ls =>
    cases hs2 : cfg.short_venue.amount_to_precision
        (min (min t.data.best_ask_size t.data.best_bid_size)
          (cfg.total_size - tr)) with
    | error u => exact ⟨le_refl tr, hub⟩
    | ok ss =>
      dsimp only []
      obtain ⟨hn1, hle1⟩ := hL _ ls hcand0 hl
      obtain ⟨hn2, hle2⟩ := hS _ ss hcand0 hs2
      have hcur_nn : 0 ≤ pyFloatOfString (pyStrMax ls ss) := by
        rcases pyStrMax_eq_or ls ss with h | h <;> rw [h] <;> assumption
      have hcur_le : pyFloatOfString (pyStrMax ls ss) ≤
          min (min t.data.best_ask_size t.data.best_bid_size)
            (cfg.total_size - tr) := by
        rcases pyStrMax_eq_or ls ss with h | h <;> rw [h] <;> assumption
      have hcur_rem : pyFloatOfString (pyStrMax ls ss) ≤ cfg.total_size - tr :=
        le_trans hcur_le (min_le_right _ _)
      by_cases hb1 : belowMin
          (pyFloatOfString (pyStrMax ls ss) * t.data.best_ask)
          cfg.long_venue.min_notional = true
      · rw [if_pos hb1]
        exact ⟨le_refl tr, hub⟩
      rw [if_neg hb1]
      by_cases hb2 : belowMin
          (pyFloatOfString (pyStrMax ls ss) * t.data.best_bid)
          cfg.short_venue.min_notional = true
      · rw [if_pos hb2]
        exact ⟨le_refl tr, hub⟩
      rw [if_neg hb2]
      constructor
      · show tr ≤ tr + pyFloatOfString (pyStrMax ls ss)
        linarith
      · show tr + pyFloatOfString (pyStrMax ls ss) ≤ cfg.total_size
        linarith

theorem runTicks_chain (cfg : EngineConfig)
    (hL : cfg.long_venue.Truncating) (hS : cfg.short_venue.Truncating) :
    ∀ (ticks : List Tick) (tr : ℚ), (∀ t ∈ ticks, t.data.Valid) →
      0 ≤ tr → tr ≤ cfg.total_size →
      List.Chain' (· ≤ ·) (tr :: (runTicks cfg tr ticks).map Prod.snd) ∧
      ∀ x ∈ (runTicks cfg tr ticks).map Prod.snd,
        0 ≤ x ∧ x ≤ cfg.total_size := by
  intro ticks
  induction ticks with
  | nil =>
    intro tr _ _ _
    exact ⟨List.chain'_singleton tr, by simp [runTicks]⟩
  | cons t ts ih =>
    intro tr hvalid h0 h1
    have hv : t.data.Valid := hvalid t (by simp)
    have hb := stepTick_bounds cfg tr t hL hS hv h1
    have h0' : 0 ≤ (stepTick cfg tr t).2.1 := le_trans h0 hb.1
    simp only [runTicks]
    by_cases hstop : (stepTick cfg tr t).2.2 = true
    · rw [if_pos hstop]
      refine ⟨?_, ?_⟩
      · simpa [List.chain'_cons] using hb.1
      · intro x hx
        simp only [List.map_cons, List.map_nil, List.mem_singleton] at hx
        subst hx
        exact ⟨h0', hb.2⟩
    · rw [if_neg hstop]
      obtain ⟨ihc, ihm⟩ := ih (stepTick cfg tr t).2.1
        (fun u hu => hvalid u (by simp [hu])) h0' hb.2
      refine ⟨?_, ?_⟩
      · simpa [List.chain'_cons] using ⟨hb.1, ihc⟩
      · intro x hx
        simp only [List.map_cons, List.mem_cons] at hx
        rcases hx with rfl | hx
        · exact ⟨h0', hb.2⟩
        · exact ihm x (by simpa using hx)

/-- C1: in every run, `transacted_size` starts at 0, is non-decreasing
across ticks, and never exceeds the total target size at any observation
point — the candidate order is clamped to `total - transacted` and the
gateway truncation can only shrink it, so no order pushes the transacted
size past the target. -/
theorem transacted_monotone_bounded (cfg : EngineConfig) (ticks : List Tick)
    (hL : cfg.long_venue.Truncating) (hS : cfg.short_venue.Truncating)
    (hticks : ∀ t ∈ ticks, t.data.Valid) (htotal : 0 ≤ cfg.total_size) :
    List.Chain' (· ≤ ·)
      (0 :: (create_arbitrage_run cfg ticks).map Prod.snd) ∧
    ∀ x ∈ 0 :: (create_arbitrage_run cfg ticks).map Prod.snd,
      x ≤ cfg.total_size := by
  obtain ⟨hc, hm⟩ := runTicks_chain cfg hL hS ticks 0 hticks le_rfl htotal
  refine ⟨hc, ?_⟩
  intro x hx
  rcases List.mem_cons.mp hx with rfl | hx
  · exact htotal
  · exact (hm x hx).2

theorem spread_percentage_mk (a b sa sb : ℚ) :
    (⟨a, b, sa, sb⟩ : PriceDifferenceData).spread_percentage =
      (b - a) / ((a + b) / 2) * 100 := rfl

/-- C5 witness: a zero-spread tick against a 0.05 threshold is skipped. -/
theorem threshold_gate_skips_tick_witness :
    runTicks cfgGate 0 [tickGate] = [(.thresholdSkip, 0)] := by
  have h := threshold_gate_skips_tick cfgGate 0 tickGate []
    (by norm_num [cfgGate, tickGate])
    (by norm_num [cfgGate, tickGate, spread_percentage_mk])
  simpa [runTicks] using h

/-- C6: a tick that reaches the minimum-notional validation and has
either leg notional (order size times that leg price) strictly below a
declared minimum is skipped: no order on either leg, the transacted size
is unchanged, and the run continues. -/
theorem min_notional_skips_tick (cfg : EngineConfig) (tr : ℚ) (t : Tick)
    (ts : List Tick) (ls ss : String)
    (htime : t.elapsed ≤ cfg.timeout)
    (hspread : cfg.threshold < t.data.spread_percentage)
    (hrem : 0 < cfg.total_size - tr)
    (hl : cfg.long_venue.amount_to_precision
      (min (min t.data.best_ask_size t.data.best_bid_size)
        (cfg.total_size - tr)) = .ok ls)
    (hs2 : cfg.short_venue.amount_to_precision
      (min (min t.data.best_ask_size t.data.best_bid_size)
        (cfg.total_size - tr)) = .ok ss)
    (hbelow :
      belowMin (pyFloatOfString (pyStrMax ls ss) * t.data.best_ask)
          cfg.long_venue.min_notional = true ∨
      belowMin (pyFloatOfString (pyStrMax ls ss) * t.data.best_bid)
          cfg.short_venue.min_notional = true) :
    runTicks cfg tr (t :: ts) = (.notionalSkip, tr) :: runTicks cfg tr ts := by
  have hA : ¬ t.elapsed > cfg.timeout := not_lt.mpr htime
  have hB : ¬ ¬ t.data.spread_percentage > cfg.threshold :=
    not_not_intro hspread
  have hC : ¬ (cfg.total_size - tr ≤ 0) := not_le.mpr hrem
  have hstep : stepTick cfg tr t = (.notionalSkip, tr, false) := by
    simp only [stepTick, if_neg hA, if_neg hB, if_neg hC, hl, hs2]
    rcases hbelow with hb | hb
    · rw [if_pos hb]
    · by_cases hbl : belowMin
          (pyFloatOfString (pyStrMax ls ss) * t.data.best_ask)
          cfg.long_venue.min_notional = true
      · rw [if_pos hbl]
      · rw [if_neg hbl, if_pos hb]
  simp [runTicks, hstep]

/-- C6 witness: the scenario tick against a long venue declaring a 1000
minimum notional (notional 4 × 100 = 400 falls short). -/
theorem min_notional_skips_tick_witness :
    runTicks cfgNotional 0 [tickNotional] = [(.notionalSkip, 0)] := by
  have hcand : min (min tickNotional.data.best_ask_size
      tickNotional.data.best_bid_size) (cfgNotional.total_size - 0) = 4 := by
    norm_num [tickNotional, cfgNotional, min_def]
  have h := min_notional_skips_tick cfgNotional 0 tickNotional [] "4" "4"
    (by norm_num [cfgNotional, tickNotional])
    (by norm_num [cfgNotional, tickNotional, spread_percentage_mk])
    (by norm_num [cfgNotional])
    (by rw [hcand]; exact stepVenue_one_atp_four)
    (by rw [hcand]; exact stepVenue_one_atp_four)
    (Or.inl (by
      rw [show pyStrMax "4" "4" = "4" from by decide, pyFloatOfString_four]
      norm_num [cfgNotional, minNotionalVenue, tickNotional, belowMin]))
  simpa [runTicks] using h

/-- C2: the OPEN scenario — target 10, threshold 0.05, best ask 100 with
size 4 against best bid 100.2 with size 6, no precision adjustment and no
minimum notional: the tick places orders of size min(4,6,10) = 4 on both
legs (buy the long leg, sell the short leg), the transacted size becomes
4, and the remaining size for the next tick is 6. -/
theorem open_scenario_fills_four (cfg : EngineConfig) (t : Tick)
    (s1 s2 : String)
    (ha : cfg.action = .OPEN) (htot : cfg.total_size = 10)
    (hth : cfg.threshold = 5/100) (htime : t.elapsed ≤ cfg.timeout)
    (hdata : t.data = ⟨100, 501/5, 4, 6⟩)
    (h1 : cfg.long_venue.amount_to_precision 4 = .ok s1)
    (h2 : cfg.short_venue.amount_to_precision 4 = .ok s2)
    (hv1 : pyFloatOfString s1 = 4) (hv2 : pyFloatOfString s2 = 4)
    (hm1 : cfg.long_venue.min_notional = none)
    (hm2 : cfg.short_venue.min_notional = none) :
    create_arbitrage_run cfg [t] = [(.placed .buy .sell 4, 4)] ∧
    cfg.total_size - 4 = 6 := by
  have hA : ¬ t.elapsed > cfg.timeout := not_lt.mpr htime
  have hB' : t.data.spread_percentage > cfg.threshold := by
    rw [hdata, hth, spread_percentage_mk]
    norm_num
  have hB : ¬ ¬ t.data.spread_percentage > cfg.threshold := not_not_intro hB'
  have hC : ¬ (cfg.total_size - 0 ≤ 0) := by
    rw [htot]
    norm_num
  have hcand : min (min t.data.best_ask_size t.data.best_bid_size)
      (cfg.total_size - 0) = 4 := by
    rw [hdata, htot]
    norm_num [min_def]
  have hmax : pyFloatOfString (pyStrMax s1 s2) = 4 := by
    rcases pyStrMax_eq_or s1 s2 with h | h <;> rw [h] <;> assumption
  have hstep : stepTick cfg 0 t = (.placed .buy .sell 4, 4, false) := by
    simp only [stepTick, if_neg hA, if_neg hB, if_neg hC, hcand, h1, h2]
    rw [hmax, hm1, hm2, ha]
    norm_num [belowMin, legSides]
  refine ⟨?_, by rw [htot]; norm_num⟩
  simp [create_arbitrage_run, runTicks, hstep]

/-- C2 witness: the scenario instantiated with unit-step venues. -/
theorem open_scenario_fills_four_witness :
    create_arbitrage_run cfgScenario [tickScenario] =
      [(.placed .buy .sell 4, 4)] ∧ cfgScenario.total_size - 4 = 6 :=
  open_scenario_fills_four cfgScenario tickScenario "4" "4" rfl rfl rfl
    (by norm_num [cfgScenario, tickScenario]) rfl
    stepVenue_one_atp_four stepVenue_one_atp_four
    pyFloatOfString_four pyFloatOfString_four rfl rfl

/-- C3 (amended): on a tick that reaches precision normalization, the
candidate size is rounded independently by each venue via its
AmountToPrecision; the size used for both legs is `float` of the *Python
string maximum* (lexicographic by code point) of the two returned decimal
strings — one of the two per-venue rounded values, never exceeding the
pre-rounding candidate — which need not be the numeric maximum. -/
theorem precision_policy_string_max (cfg : EngineConfig) (tr : ℚ) (t : Tick)
    (ls ss : String)
    (hL : cfg.long_venue.Truncating) (hS : cfg.short_venue.Truncating)
    (hv : t.data.Valid)
    (htime : t.elapsed ≤ cfg.timeout)
    (hspread : cfg.threshold < t.data.spread_percentage)
    (hrem : 0 < cfg.total_size - tr)
    (hl : cfg.long_venue.amount_to_precision
      (min (min t.data.best_ask_size t.data.best_bid_size)
        (cfg.total_size - tr)) = .ok ls)
    (hs2 : cfg.short_venue.amount_to_precision
      (min (min t.data.best_ask_size t.data.best_bid_size)
        (cfg.total_size - tr)) = .ok ss) :
    (pyFloatOfString (pyStrMax ls ss) = pyFloatOfString ls ∨
      pyFloatOfString (pyStrMax ls ss) = pyFloatOfString ss) ∧
    pyFloatOfString (pyStrMax ls ss) ≤
      min (min t.data.best_ask_size t.data.best_bid_size)
        (cfg.total_size - tr) ∧
    (stepTick cfg tr t =
        (.placed (legSides cfg.action).1 (legSides cfg.action).2
          (pyFloatOfString (pyStrMax ls ss)),
         tr + pyFloatOfString (pyStrMax ls ss), false) ∨
      stepTick cfg tr t = (.notionalSkip, tr, false)) := by
  obtain ⟨hva, hvb, hvas, hvbs⟩ := hv
  have hA : ¬ t.elapsed > cfg.timeout := not_lt.mpr htime
  have hB : ¬ ¬ t.data.spread_percentage > cfg.threshold :=
    not_not_intro hspread
  have hC : ¬ (cfg.total_size - tr ≤ 0) := not_le.mpr hrem
  have hcand0 : (0 : ℚ) ≤
      min (min t.data.best_ask_size t.data.best_bid_size)
        (cfg.total_size - tr) :=
    le_min (le_min hvas.le hvbs.le) hrem.le
  obtain ⟨hn1, hle1⟩ := hL _ ls hcand0 hl
  obtain ⟨hn2, hle2⟩ := hS _ ss hcand0 hs2
  refine ⟨?_, ?_, ?_⟩
  · rcases pyStrMax_eq_or ls ss with h | h
    · exact Or.inl (by rw [h])
    · exact Or.inr (by rw [h])
  · rcases pyStrMax_eq_or ls ss with h | h <;> rw [h] <;> assumption
  · by_cases hb1 : belowMin
        (pyFloatOfString (pyStrMax ls ss) * t.data.best_ask)
        cfg.long_venue.min_notional = true
    · refine Or.inr ?_
      simp only [stepTick, if_neg hA, if_neg hB, if_neg hC, hl, hs2]
      rw [if_pos hb1]
    · by_cases hb2 : belowMin
          (pyFloatOfString (pyStrMax ls ss) * t.data.best_bid)
          cfg.short_venue.min_notional = true
      · refine Or.inr ?_
        simp only [stepTick, if_neg hA, if_neg hB, if_neg hC, hl, hs2]
        rw [if_neg hb1, if_pos hb2]
      · refine Or.inl ?_
        simp only [stepTick, if_neg hA, if_neg hB, if_neg hC, hl, hs2]
        rw [if_neg hb1, if_neg hb2]

/-- C3 witness: the policy theorem instantiated at the zero gateway. -/
theorem precision_policy_string_max_witness :
    (pyFloatOfString (pyStrMax "0" "0") = pyFloatOfString "0" ∨
      pyFloatOfString (pyStrMax "0" "0") = pyFloatOfString "0") ∧
    pyFloatOfString (pyStrMax "0" "0") ≤
      min (min tickStrMax.data.best_ask_size tickStrMax.data.best_bid_size)
        (cfgStrMax.total_size - 0) ∧
    (stepTick cfgStrMax 0 tickStrMax =
        (.placed (legSides cfgStrMax.action).1 (legSides cfgStrMax.action).2
          (pyFloatOfString (pyStrMax "0" "0")),
         0 + pyFloatOfString (pyStrMax "0" "0"), false) ∨
      stepTick cfgStrMax 0 tickStrMax = (.notionalSkip, 0, false)) :=
  precision_policy_string_max cfgStrMax 0 tickStrMax "0" "0"
    zeroVenue_truncating zeroVenue_truncating
    (by norm_num [tickStrMax, PriceDifferenceData.Valid])
    (by norm_num [cfgStrMax, tickStrMax])
    (by norm_num [cfgStrMax, tickStrMax, spread_percentage_mk])
    (by norm_num [cfgStrMax]) rfl rfl

/-- C3 counterexample: venues with precision steps 10 and 3 round the
candidate 10.4 to the strings `"10"` and `"9"`; Python string-max picks
`"9"`, so the engine sends size 9 to both legs while the numeric maximum
of the two rounded values is 10. -/
theorem precision_string_max_counterexample :
    cfgLex.long_venue.amount_to_precision (52/5) = .ok "10" ∧
    cfgLex.short_venue.amount_to_precision (52/5) = .ok "9" ∧
    pyFloatOfString "10" = 10 ∧ pyFloatOfString "9" = 9 ∧
    create_arbitrage_run cfgLex [tickLex] = [(.placed .buy .sell 9, 9)] ∧
    max (pyFloatOfString "10") (pyFloatOfString "9") = 10 ∧
    (9 : ℚ) ≠ 10 := by
  refine ⟨stepVenue_ten_atp, stepVenue_three_atp, pyFloatOfString_ten,
    pyFloatOfString_nine, ?_, ?_, by norm_num⟩
  · have hA : ¬ tickLex.elapsed > cfgLex.timeout := by
      norm_num [tickLex, cfgLex]
    have hB' : tickLex.data.spread_percentage > cfgLex.threshold := by
      norm_num [tickLex, cfgLex, spread_percentage_mk]
    have hC : ¬ (cfgLex.total_size - 0 ≤ 0) := by norm_num [cfgLex]
    have hcand : min (min tickLex.data.best_ask_size
        tickLex.data.best_bid_size) (cfgLex.total_size - 0) = 52/5 := by
      norm_num [tickLex, cfgLex, min_def]
    have h1 : cfgLex.long_venue.amount_to_precision (52/5) = .ok "10" :=
      stepVenue_ten_atp
    have h2 : cfgLex.short_venue.amount_to_precision (52/5) = .ok "9" :=
      stepVenue_three_atp
    have hstep : stepTick cfgLex 0 tickLex =
        (.placed .buy .sell 9, 9, false) := by
      simp only [stepTick, if_neg hA, if_neg (not_not_intro hB'), if_neg hC,
        hcand, h1, h2]
      rw [show pyStrMax "10" "9" = "9" from by decide, pyFloatOfString_nine]
      norm_num [cfgLex, stepVenue, belowMin, legSides]
    simp [create_arbitrage_run, runTicks, hstep]
  · rw [pyFloatOfString_ten, pyFloatOfString_nine]
    norm_num

/-- C8 (amended): once `remaining = total - transacted ≤ 0`, no further
order is ever placed and the transacted size stays unchanged, but the run
does not stop before evaluating further ticks: ticks failing the
threshold gate (or hitting the timeout) are still consumed and skipped,
and the run stops with target-reached at the first subsequent tick that
passes the timeout and threshold gates. -/
theorem no_orders_after_target (cfg : EngineConfig) :
    (∀ (ticks : List Tick) (tr : ℚ), cfg.total_size ≤ tr →
      ∀ p ∈ runTicks cfg tr ticks, p.2 = tr ∧
        (p.1 = .thresholdSkip ∨ p.1 = .timeoutStop ∨
          p.1 = .targetReached)) ∧
    (∀ (tr : ℚ) (t : Tick) (ts : List Tick), cfg.total_size ≤ tr →
      t.elapsed ≤ cfg.timeout → cfg.threshold < t.data.spread_percentage →
      runTicks cfg tr (t :: ts) = [(.targetReached, tr)]) := by
  have hstep_target : ∀ (tr : ℚ) (t : Tick), cfg.total_size ≤ tr →
      ¬ t.elapsed > cfg.timeout → t.data.spread_percentage > cfg.threshold →
      stepTick cfg tr t = (.targetReached, tr, true) := by
    intro tr t htr hA hB'
    have hC : cfg.total_size - tr ≤ 0 := by linarith
    simp only [stepTick, if_neg hA, if_neg (not_not_intro hB'), if_pos hC]
  constructor
  · intro ticks
    induction ticks with
    | nil =>
      intro tr _ p hp
      simp [runTicks] at hp
    | cons t ts ih =>
      intro tr htr p hp
      by_cases hA : t.elapsed > cfg.timeout
      · have hstep : stepTick cfg tr t = (.timeoutStop, tr, true) := by
          simp only [stepTick, if_pos hA]
        simp [runTicks, hstep] at hp
        subst hp
        exact ⟨rfl, Or.inr (Or.inl rfl)⟩
      · by_cases hB : ¬ t.data.spread_percentage > cfg.threshold
        · have hstep : stepTick cfg tr t = (.thresholdSkip, tr, false) := by
            simp only [stepTick, if_neg hA, if_pos hB]
          simp [runTicks, hstep] at hp
          rcases hp with rfl | hp
          · exact ⟨rfl, Or.inl rfl⟩
          · exact ih tr htr p hp
        · push_neg at hB
          have hstep := hstep_target tr t htr hA hB
          simp [runTicks, hstep] at hp
          subst hp
          exact ⟨rfl, Or.inr (Or.inr rfl)⟩
  · intro tr t ts htr htime hsp
    have hstep := hstep_target tr t htr (not_lt.mpr htime) hsp
    simp [runTicks, hstep]

/-- C8 witness: with the target already met, a passing tick stops the run
with target-reached and no order. -/
theorem no_orders_after_target_witness :
    runTicks cfgAfterTarget 4 [tickTrade] = [(.targetReached, 4)] :=
  (no_orders_after_target cfgAfterTarget).2 4 tickTrade []
    (by norm_num [cfgAfterTarget])
    (by norm_num [cfgAfterTarget, tickTrade])
    (by norm_num [cfgAfterTarget, tickTrade, spread_percentage_mk])

/-- C8 counterexample: a run whose first tick fills the whole target (4 of
4) still processes the next zero-spread tick — it is skipped on the
threshold gate, not stopped — and only the third tick, which passes the
gate, stops the run.  The claim that no later tick is processed once
`remaining ≤ 0` is therefore false. -/
theorem run_continues_after_target_counterexample :
    cfgAfterTarget.total_size = 4 ∧
    create_arbitrage_run cfgAfterTarget [tickTrade, tickFlatAfter, tickTrade] =
      [(.placed .buy .sell 4, 4), (.thresholdSkip, 4),
        (.targetReached, 4)] := by
  refine ⟨rfl, ?_⟩
  have hA1 : ¬ tickTrade.elapsed > cfgAfterTarget.timeout := by
    norm_num [tickTrade, cfgAfterTarget]
  have hB1 : tickTrade.data.spread_percentage > cfgAfterTarget.threshold := by
    norm_num [tickTrade, cfgAfterTarget, spread_percentage_mk]
  have hstep1 : stepTick cfgAfterTarget 0 tickTrade =
      (.placed .buy .sell 4, 4, false) := by
    have hC : ¬ (cfgAfterTarget.total_size - 0 ≤ 0) := by
      norm_num [cfgAfterTarget]
    have hcand : min (min tickTrade.data.best_ask_size
        tickTrade.data.best_bid_size) (cfgAfterTarget.total_size - 0) = 4 := by
      norm_num [tickTrade, cfgAfterTarget, min_def]
    have h1 : cfgAfterTarget.long_venue.amount_to_precision 4 = .ok "4" :=
      stepVenue_one_atp_four
    have h2 : cfgAfterTarget.short_venue.amount_to_precision 4 = .ok "4" :=
      stepVenue_one_atp_four
    simp only [stepTick, if_neg hA1, if_neg (not_not_intro hB1), if_neg hC,
      hcand, h1, h2]
    rw [show pyStrMax "4" "4" = "4" from by decide, pyFloatOfString_four]
    norm_num [cfgAfterTarget, stepVenue, belowMin, legSides]
  have hstep2 : stepTick cfgAfterTarget 4 tickFlatAfter =
      (.thresholdSkip, 4, false) := by
    have hA : ¬ tickFlatAfter.elapsed > cfgAfterTarget.timeout := by
      norm_num [tickFlatAfter, cfgAfterTarget]
    have hB : ¬ tickFlatAfter.data.spread_percentage >
        cfgAfterTarget.threshold := by
      norm_num [tickFlatAfter, cfgAfterTarget, spread_percentage_mk]
    simp only [stepTick, if_pos hB, if_neg hA]
  have hstep3 : stepTick cfgAfterTarget 4 tickTrade =
      (.targetReached, 4, true) := by
    have hC : cfgAfterTarget.total_size - 4 ≤ 0 := by
      norm_num [cfgAfterTarget]
    simp only [stepTick, if_neg hA1, if_neg (not_not_intro hB1), if_pos hC]
  simp [create_arbitrage_run, runTicks, hstep1, hstep2, hstep3]

/-- C1 witness: a one-tick run against the degenerate truncating
gateway. -/
theorem transacted_monotone_bounded_witness :
    List.Chain' (· ≤ ·)
      (0 :: (create_arbitrage_run cfgZero [tickZero]).map Prod.snd) ∧
    ∀ x ∈ 0 :: (create_arbitrage_run cfgZero [tickZero]).map Prod.snd,
      x ≤ cfgZero.total_size :=
  transacted_monotone_bounded cfgZero [tickZero]
    zeroVenue_truncating zeroVenue_truncating
    (by
      intro u hu
      simp only [List.mem_singleton] at hu
      subst hu
      norm_num [tickZero, PriceDifferenceData.Valid])
    (by norm_num [cfgZero])

end Frarber
